import Mathlib

/-!
Verification of the booking engine of `server.py` (club_angel).

The embedding models the SQLite-backed state as explicit record-of-lists
state passing.  Timestamps are modelled as `Nat` seconds on a fixed
timeline: the code consumes zero-padded fixed-format strings
(`YYYY-MM-DD HH:MM:SS`), for which lexicographic string comparison (used
by the SQL overlap scan) and parsed-datetime comparison (used by the
Python `t2 <= t1` check) induce the same total order, so both are the
order on `Nat`.  A request field that is absent, falsy under Python's
`all([...])` test, or an unparseable timestamp is modelled as `none`
(all of these produce the same 400 "invalid input" response class).
-/

namespace ClubAngel

/-- A parsed timestamp, as seconds on the timeline (`(t2 - t1).total_seconds()`). -/
abbrev Timestamp := Nat

/-- A row of the `users` table (columns relevant to the booking engine:
`id`, `username`, `playtime INTEGER DEFAULT 0`). -/
structure User where
  id : Nat
  username : String
  playtime : Int
deriving Repr, DecidableEq

/-- A row of the `bookings` table. -/
structure Booking where
  id : Nat
  user_id : Nat
  console_id : Nat
  start_time : Timestamp
  end_time : Timestamp
deriving Repr, DecidableEq

/-- The persistent state: `users`, `consoles` (ids only; names play no
role in the engine), `bookings`, and the AUTOINCREMENT counters. -/
structure DB where
  users : List User
  consoles : List Nat
  bookings : List Booking
  nextUserId : Nat
  nextBookingId : Nat
deriving Repr, DecidableEq

/-- The error classes the endpoints report (the spec's taxonomy:
`InvalidInput` = 400 missing/malformed, `InvalidInterval` = 400
"end_time must be after start_time", `UnknownUser` = 404 "user not
found", `UnknownResource` = 404 "console not found", `Conflict` = 400
"console already booked in this time range"). -/
inductive ApiError where
  | invalidInput
  | invalidInterval
  | unknownUser
  | unknownResource
  | conflict
deriving Repr, DecidableEq

/-- The JSON body of a `/booking` request as the handler reads it.
`none` stands for a missing field or (for the timestamps) an
unparseable string.  `explicit_hours` models any extra "hours" key a
caller may include in the JSON object; the handler never reads it. -/
structure RawRequest where
  username : Option String
  console_id : Option Nat
  start_time : Option Timestamp
  end_time : Option Timestamp
  explicit_hours : Option Int
deriving Repr, DecidableEq

/-- Lookup `SELECT id FROM users WHERE username = ?` (first matching row). -/
def findUser (db : DB) (uname : String) : Option User :=
  db.users.find? (fun u => u.username == uname)

/-- Delta policy `added_hours = int(seconds // 3600); if added_hours <= 0: added_hours = 1`
(on `Nat`, `added_hours <= 0` is `added_hours = 0`). -/
def added_hours (t1 t2 : Timestamp) : Nat :=
  let h := (t2 - t1) / 3600
  if h = 0 then 1 else h

/-- The overlap scan
`SELECT 1 FROM bookings WHERE console_id = ? AND start_time < ?end AND end_time > ?start`. -/
def hasConflict (db : DB) (cid : Nat) (t1 t2 : Timestamp) : Bool :=
  db.bookings.any (fun b =>
    b.console_id == cid && decide (b.start_time < t2) && decide (t1 < b.end_time))

/-- Update `UPDATE users SET playtime = playtime + ? WHERE id = ?`. -/
def applyDelta (users : List User) (uid : Nat) (d : Int) : List User :=
  users.map (fun v => if v.id == uid then { v with playtime := v.playtime + d } else v)

/-- The transaction committed on the success path: the booking INSERT and
the playtime UPDATE, as one atomic state change. -/
def insertBooking (db : DB) (u : User) (cid : Nat) (t1 t2 : Timestamp) (d : Nat) : DB :=
  { db with
    bookings := db.bookings ++ [⟨db.nextBookingId, u.id, cid, t1, t2⟩]
    nextBookingId := db.nextBookingId + 1
    users := applyDelta db.users u.id (d : Int) }

/-- The body of the `/booking` handler after field extraction: interval
validation, delta computation, user lookup, console lookup, overlap
check, then the transactional insert.  The `uname = "" ∨ cid = 0`
disjunct is Python's `not all([...])` treating the empty string and `0`
as missing. -/
def reserveChecked (db : DB) (uname : String) (cid : Nat) (t1 t2 : Timestamp) :
    DB × Except ApiError Nat :=
  if uname = "" ∨ cid = 0 then (db, .error .invalidInput)
  else if t2 ≤ t1 then (db, .error .invalidInterval)
  else
    match findUser db uname with
    | none => (db, .error .unknownUser)
    | some u =>
      if db.consoles.contains cid then
        if hasConflict db cid t1 t2 then (db, .error .conflict)
        else (insertBooking db u cid t1 t2 (added_hours t1 t2), .ok (added_hours t1 t2))
      else (db, .error .unknownResource)

/-- The `/booking` endpoint (`reserve`).  Error paths close the
connection without committing, so they return the state unchanged;
the success payload is `added_hours`. -/
def reserve (db : DB) (req : RawRequest) : DB × Except ApiError Nat :=
  match req.username, req.console_id, req.start_time, req.end_time with
  | some uname, some cid, some t1, some t2 => reserveChecked db uname cid t1 t2
  | _, _, _, _ => (db, .error .invalidInput)

/-- The `/register` endpoint (rows inserted with `playtime` at its
`DEFAULT 0`; a duplicate username raises `IntegrityError`, reported as a
400 like the missing-field case). -/
def register (db : DB) (uname pw : String) : DB × Except ApiError Nat :=
  if uname = "" ∨ pw = "" then (db, .error .invalidInput)
  else if db.users.any (fun u => u.username == uname) then (db, .error .invalidInput)
  else
    ({ db with
        users := db.users ++ [⟨db.nextUserId, uname, 0⟩]
        nextUserId := db.nextUserId + 1 },
     .ok db.nextUserId)

/-- The `/add_playtime` endpoint (`applyUsage`): after the
`not username or hours <= 0` guard it runs
`UPDATE users SET playtime = playtime + ? WHERE username = ?`
unconditionally and reports success — there is no user-existence
check, so an unknown username updates zero rows. -/
def add_playtime (db : DB) (uname : String) (hours : Int) : DB × Except ApiError Unit :=
  if uname = "" ∨ hours ≤ 0 then (db, .error .invalidInput)
  else
    ({ db with
        users := db.users.map (fun v =>
          if v.username == uname then { v with playtime := v.playtime + hours } else v) },
     .ok ())

/-- The `/playtime` endpoint (`getUsage`): read-only. -/
def get_playtime (db : DB) (uname : String) : Except ApiError Int :=
  if uname = "" then .error .invalidInput
  else
    match findUser db uname with
    | none => .error .unknownUser
    | some u => .ok u.playtime

/-- Initialization `init_db`: empty `users`/`bookings`, the five seeded consoles
(AUTOINCREMENT ids 1..5). -/
def initDB : DB :=
  { users := []
    consoles := [1, 2, 3, 4, 5]
    bookings := []
    nextUserId := 1
    nextBookingId := 1 }

/-- The playtime a `users` row list reports for a user id (0 when no row
exists, matching `DEFAULT 0`). -/
def playtimeOf (l : List User) (uid : Nat) : Int :=
  match l.find? (fun u => u.id == uid) with
  | some u => u.playtime
  | none => 0

/-- The playtime the database reports for a user id. -/
def userPlaytime (db : DB) (uid : Nat) : Int :=
  playtimeOf db.users uid

/-- The states the running server can be in: reachable from `init_db`
by the three state-mutating endpoints. -/
inductive Reachable : DB → Prop where
  | init : Reachable initDB
  | regStep (db : DB) (un pw : String) : Reachable db → Reachable (register db un pw).1
  | reserveStep (db : DB) (req : RawRequest) : Reachable db → Reachable (reserve db req).1
  | addStep (db : DB) (un : String) (h : Int) : Reachable db → Reachable (add_playtime db un h).1

/-- Two bookings overlap when they name the same console and their
half-open `[start, end)` intervals intersect. -/
def overlaps (a b : Booking) : Prop :=
  a.console_id = b.console_id ∧ a.start_time < b.end_time ∧ b.start_time < a.end_time

/-- The ledger invariant: no two stored bookings on the same console
overlap. -/
def NoOverlap (db : DB) : Prop :=
  db.bookings.Pairwise (fun a b => ¬ overlaps a b)

/-- Example state: one registered user `alice` (id 1, playtime 0). -/
def dbA : DB := (register initDB "alice" "pw").1

/-- Example request: alice books console 1 for `[0, 7200)` (two hours). -/
def reqA : RawRequest := ⟨some "alice", some 1, some 0, some 7200, none⟩

/-- Example request: alice books console 2 for `[0, 1800)` (half an hour). -/
def reqShort : RawRequest := ⟨some "alice", some 2, some 0, some 1800, none⟩

/-- First lemma about `reserve`: complete case analysis — either the call
fails and the state is untouched, or all validation passed and the call
commits exactly the insert-plus-update transaction. -/
lemma reserve_cases (db : DB) (req : RawRequest) :
    ((reserve db req).1 = db ∧ ∃ e, (reserve db req).2 = Except.error e) ∨
    ∃ uname cid t1 t2 u,
      req.username = some uname ∧ req.console_id = some cid ∧
      req.start_time = some t1 ∧ req.end_time = some t2 ∧
      uname ≠ "" ∧ cid ≠ 0 ∧ t1 < t2 ∧
      findUser db uname = some u ∧ db.consoles.contains cid = true ∧
      hasConflict db cid t1 t2 = false ∧
      reserve db req = (insertBooking db u cid t1 t2 (added_hours t1 t2),
                        Except.ok (added_hours t1 t2)) := by
  obtain ⟨ou, oc, os, oe, oh⟩ := req
  cases ou with
  | none => exact Or.inl ⟨rfl, ApiError.invalidInput, rfl⟩
  | some uname =>
  cases oc with
  | none => exact Or.inl ⟨rfl, ApiError.invalidInput, rfl⟩
  | some cid =>
  cases os with
  | none => exact Or.inl ⟨rfl, ApiError.invalidInput, rfl⟩
  | some t1 =>
  cases oe with
  | none => exact Or.inl ⟨rfl, ApiError.invalidInput, rfl⟩
  | some t2 =>
  show ((reserveChecked db uname cid t1 t2).1 = db ∧
          ∃ e, (reserveChecked db uname cid t1 t2).2 = Except.error e) ∨ _
  unfold reserveChecked
  by_cases h1 : uname = "" ∨ cid = 0
  · rw [if_pos h1]
    exact Or.inl ⟨rfl, ApiError.invalidInput, rfl⟩
  · rw [if_neg h1]
    by_cases h2 : t2 ≤ t1
    · rw [if_pos h2]
      exact Or.inl ⟨rfl, ApiError.invalidInterval, rfl⟩
    · rw [if_neg h2]
      push_neg at h1 h2
      cases hf : findUser db uname with
      | none => exact Or.inl ⟨rfl, ApiError.unknownUser, rfl⟩
      | some u =>
        dsimp only
        by_cases hcon : db.consoles.contains cid = true
        · rw [if_pos hcon]
          by_cases hcf : hasConflict db cid t1 t2 = true
          · rw [if_pos hcf]
            exact Or.inl ⟨rfl, ApiError.conflict, rfl⟩
          · rw [if_neg hcf]
            refine Or.inr ⟨uname, cid, t1, t2, u, rfl, rfl, rfl, rfl,
              h1.1, h1.2, h2, hf, hcon, Bool.eq_false_iff.mpr hcf, ?_⟩
            show reserveChecked db uname cid t1 t2 = _
            unfold reserveChecked
            rw [if_neg (by push_neg; exact h1), if_neg (Nat.not_le.mpr h2), hf]
            dsimp only
            rw [if_pos hcon, if_neg hcf]
        · rw [if_neg hcon]
          exact Or.inl ⟨rfl, ApiError.unknownResource, rfl⟩

/-- The SQL overlap scan succeeds exactly when some stored booking on the
same console has `start < new.end` and `end > new.start`. -/
lemma hasConflict_true_iff (db : DB) (cid : Nat) (t1 t2 : Timestamp) :
    hasConflict db cid t1 t2 = true ↔
      ∃ b ∈ db.bookings, b.console_id = cid ∧ b.start_time < t2 ∧ t1 < b.end_time := by
  simp [hasConflict, List.any_eq_true, Bool.and_eq_true, beq_iff_eq, decide_eq_true_eq,
    and_assoc]

/-- The overlap scan comes back empty exactly when every stored booking on
the console misses the requested interval. -/
lemma hasConflict_false_iff (db : DB) (cid : Nat) (t1 t2 : Timestamp) :
    hasConflict db cid t1 t2 = false ↔
      ∀ b ∈ db.bookings, ¬(b.console_id = cid ∧ b.start_time < t2 ∧ t1 < b.end_time) := by
  constructor
  · intro h b hb hP
    have htrue : hasConflict db cid t1 t2 = true :=
      (hasConflict_true_iff db cid t1 t2).mpr ⟨b, hb, hP⟩
    rw [h] at htrue
    cases htrue
  · intro h
    cases hcf : hasConflict db cid t1 t2 with
    | false => rfl
    | true =>
      rcases (hasConflict_true_iff db cid t1 t2).mp hcf with ⟨b, hb, hP⟩
      exact absurd hP (h b hb)

/-- Lookup by user id commutes with mapping an id-preserving update over
the rows. -/
lemma find?_map_of_id (l : List User) (f : User → User)
    (hid : ∀ u, (f u).id = u.id) (uid : Nat) :
    (l.map f).find? (fun u => u.id == uid) = (l.find? (fun u => u.id == uid)).map f := by
  induction l with
  | nil => rfl
  | cons a l ih =>
    simp only [List.map_cons, List.find?_cons, hid a]
    cases h : (a.id == uid) with
    | true => rfl
    | false => exact ih

/-- An id-preserving, playtime-non-decreasing row update never lowers any
reported playtime. -/
lemma playtimeOf_map_mono (l : List User) (f : User → User)
    (hid : ∀ u, (f u).id = u.id) (hpt : ∀ u, u.playtime ≤ (f u).playtime) (uid : Nat) :
    playtimeOf l uid ≤ playtimeOf (l.map f) uid := by
  unfold playtimeOf
  rw [find?_map_of_id l f hid uid]
  cases h : l.find? (fun u => u.id == uid) with
  | none => simp
  | some u => simpa using hpt u

/-- The playtime `UPDATE ... WHERE id = ?` adds exactly the delta to the
targeted user's reported playtime. -/
lemma playtimeOf_applyDelta_self (l : List User) (uid : Nat) (d : Int)
    (h : ∃ u ∈ l, u.id = uid) :
    playtimeOf (applyDelta l uid d) uid = playtimeOf l uid + d := by
  unfold playtimeOf applyDelta
  rw [find?_map_of_id l _ (fun u => by split <;> rfl) uid]
  cases hf : l.find? (fun u => u.id == uid) with
  | none =>
    rcases h with ⟨u, hu, hid⟩
    rw [List.find?_eq_none] at hf
    exact absurd (by simpa using hid) (hf u hu)
  | some v =>
    have hv : v.id = uid := by simpa using List.find?_some hf
    simp [hv]

/-- The playtime `UPDATE ... WHERE id = ?` leaves every other user's
reported playtime unchanged. -/
lemma playtimeOf_applyDelta_other (l : List User) (uid uid' : Nat) (d : Int)
    (h : uid' ≠ uid) :
    playtimeOf (applyDelta l uid d) uid' = playtimeOf l uid' := by
  unfold playtimeOf applyDelta
  rw [find?_map_of_id l _ (fun u => by split <;> rfl) uid']
  cases hf : l.find? (fun u => u.id == uid') with
  | none => rfl
  | some v =>
    have hv : v.id = uid' := by simpa using List.find?_some hf
    simp [hv, h]

/-- Registration never touches the bookings table. -/
lemma register_bookings (db : DB) (un pw : String) :
    ((register db un pw).1).bookings = db.bookings := by
  unfold register
  split_ifs <;> rfl

/-- The direct playtime increment never touches the bookings table. -/
lemma add_playtime_bookings (db : DB) (un : String) (h : Int) :
    ((add_playtime db un h).1).bookings = db.bookings := by
  unfold add_playtime
  split_ifs <;> rfl

/-- The invariant `NoOverlap` only reads the bookings table. -/
lemma noOverlap_of_bookings_eq {db db' : DB}
    (h : db'.bookings = db.bookings) (hn : NoOverlap db) : NoOverlap db' := by
  unfold NoOverlap at *
  rw [h]
  exact hn

/-- Appending a booking that passed the overlap scan preserves the ledger
invariant. -/
lemma noOverlap_insertBooking (db : DB) (u : User) (cid : Nat) (t1 t2 : Timestamp)
    (d : Nat) (hcf : hasConflict db cid t1 t2 = false) (h : NoOverlap db) :
    NoOverlap (insertBooking db u cid t1 t2 d) := by
  unfold NoOverlap insertBooking
  dsimp only
  rw [List.pairwise_append]
  refine ⟨h, List.pairwise_singleton _ _, ?_⟩
  intro a ha b hb
  rw [List.mem_singleton] at hb
  subst hb
  intro hov
  obtain ⟨hcid, hst, het⟩ := hov
  exact (hasConflict_false_iff db cid t1 t2).mp hcf a ha ⟨hcid, hst, het⟩

/-- Reservation preserves the ledger invariant. -/
lemma reserve_preserves_noOverlap (db : DB) (req : RawRequest) (h : NoOverlap db) :
    NoOverlap (reserve db req).1 := by
  rcases reserve_cases db req with ⟨heq, -⟩ |
    ⟨uname, cid, t1, t2, u, -, -, -, -, -, -, -, -, -, hcf, heq⟩
  · rw [heq]; exact h
  · rw [heq]
    exact noOverlap_insertBooking db u cid t1 t2 (added_hours t1 t2) hcf h

/-- Every reachable state satisfies the ledger invariant. -/
lemma reachable_noOverlap (db : DB) (h : Reachable db) : NoOverlap db := by
  induction h with
  | init => exact List.Pairwise.nil
  | regStep db un pw _ ih => exact noOverlap_of_bookings_eq (register_bookings db un pw) ih
  | reserveStep db req _ ih => exact reserve_preserves_noOverlap db req ih
  | addStep db un hrs _ ih => exact noOverlap_of_bookings_eq (add_playtime_bookings db un hrs) ih

/-- Reservation keeps every stored playtime non-negative. -/
lemma reserve_preserves_nonneg (db : DB) (req : RawRequest)
    (h : ∀ u ∈ db.users, 0 ≤ u.playtime) :
    ∀ u ∈ (reserve db req).1.users, 0 ≤ u.playtime := by
  rcases reserve_cases db req with ⟨heq, -⟩ |
    ⟨uname, cid, t1, t2, u, -, -, -, -, -, -, -, -, -, -, heq⟩
  · rw [heq]; exact h
  · rw [heq]
    intro v hv
    unfold insertBooking applyDelta at hv
    dsimp only at hv
    rcases List.mem_map.mp hv with ⟨w, hw, rfl⟩
    split
    · dsimp only
      have : (0 : Int) ≤ (added_hours t1 t2 : Int) := Int.natCast_nonneg _
      linarith [h w hw]
    · exact h w hw

/-- Registration keeps every stored playtime non-negative (the new row is
created at the column default 0). -/
lemma register_preserves_nonneg (db : DB) (un pw : String)
    (h : ∀ u ∈ db.users, 0 ≤ u.playtime) :
    ∀ u ∈ (register db un pw).1.users, 0 ≤ u.playtime := by
  unfold register
  split_ifs <;> intro v hv
  · exact h v hv
  · exact h v hv
  · dsimp only at hv
    rcases List.mem_append.mp hv with hv | hv
    · exact h v hv
    · rw [List.mem_singleton] at hv
      subst hv
      exact le_refl 0

/-- The direct playtime increment keeps every stored playtime
non-negative: past the guard the delta is strictly positive. -/
lemma add_playtime_preserves_nonneg (db : DB) (un : String) (hrs : Int)
    (h : ∀ u ∈ db.users, 0 ≤ u.playtime) :
    ∀ u ∈ (add_playtime db un hrs).1.users, 0 ≤ u.playtime := by
  unfold add_playtime
  split_ifs with hg
  · exact h
  · intro v hv
    dsimp only at hv
    rcases List.mem_map.mp hv with ⟨w, hw, rfl⟩
    push_neg at hg
    split
    · dsimp only
      linarith [h w hw, hg.2]
    · exact h w hw

/-- Every reachable state stores only non-negative playtimes. -/
lemma reachable_nonneg (db : DB) (h : Reachable db) :
    ∀ u ∈ db.users, 0 ≤ u.playtime := by
  induction h with
  | init => intro u hu; cases hu
  | regStep db un pw _ ih => exact register_preserves_nonneg db un pw ih
  | reserveStep db req _ ih => exact reserve_preserves_nonneg db req ih
  | addStep db un hrs _ ih => exact add_playtime_preserves_nonneg db un hrs ih

/-- Appending a row with non-negative playtime never lowers any reported
playtime. -/
lemma playtimeOf_append_mono (l : List User) (nu : User) (hnu : 0 ≤ nu.playtime)
    (uid : Nat) :
    playtimeOf l uid ≤ playtimeOf (l ++ [nu]) uid := by
  induction l with
  | nil =>
    unfold playtimeOf
    simp only [List.nil_append, List.find?_nil, List.find?_cons]
    cases h : (nu.id == uid) with
    | true => simpa using hnu
    | false => simp
  | cons a l ih =>
    unfold playtimeOf at ih ⊢
    simp only [List.cons_append, List.find?_cons]
    cases h : (a.id == uid) with
    | true => exact le_refl _
    | false => exact ih

/-- The playtime `UPDATE` with a non-negative delta never lowers any
reported playtime. -/
lemma playtimeOf_applyDelta_mono (l : List User) (uid0 uid : Nat) (d : Int)
    (hd : 0 ≤ d) :
    playtimeOf l uid ≤ playtimeOf (applyDelta l uid0 d) uid := by
  unfold applyDelta
  refine playtimeOf_map_mono l _ (fun u => by split <;> rfl) (fun u => ?_) uid
  split
  · exact le_add_of_nonneg_right hd
  · exact le_refl _

/-- Registration never lowers any reported playtime. -/
lemma register_playtime_mono (db : DB) (un pw : String) (uid : Nat) :
    userPlaytime db uid ≤ userPlaytime (register db un pw).1 uid := by
  unfold register
  split_ifs
  · exact le_refl _
  · exact le_refl _
  · exact playtimeOf_append_mono db.users ⟨db.nextUserId, un, 0⟩ (le_refl 0) uid

/-- Reservation never lowers any reported playtime. -/
lemma reserve_playtime_mono (db : DB) (req : RawRequest) (uid : Nat) :
    userPlaytime db uid ≤ userPlaytime (reserve db req).1 uid := by
  rcases reserve_cases db req with ⟨heq, -⟩ |
    ⟨uname, cid, t1, t2, u, -, -, -, -, -, -, -, -, -, -, heq⟩
  · rw [heq]
  · rw [heq]
    exact playtimeOf_applyDelta_mono db.users u.id uid _ (Int.natCast_nonneg _)

/-- The direct playtime increment never lowers any reported playtime. -/
lemma add_playtime_mono (db : DB) (un : String) (hrs : Int) (uid : Nat) :
    userPlaytime db uid ≤ userPlaytime (add_playtime db un hrs).1 uid := by
  unfold add_playtime
  split_ifs with hg
  · exact le_refl _
  · push_neg at hg
    refine playtimeOf_map_mono db.users _ (fun u => by split <;> rfl) (fun u => ?_) uid
    split
    · exact le_add_of_nonneg_right (le_of_lt hg.2)
    · exact le_refl _

/-- Mapping a function that fixes every element of a list is the
identity on that list. -/
lemma map_id_of_no_match (l : List User) (f : User → User)
    (h : ∀ u ∈ l, f u = u) : l.map f = l := by
  induction l with
  | nil => rfl
  | cons a l ih =>
    rw [List.map_cons, h a (List.mem_cons_self a l),
      ih (fun u hu => h u (List.mem_cons_of_mem a hu))]

/-- C7: a reserve request with present, parseable timestamps and
`end <= start` fails with `InvalidInterval` in every database state —
for any resource id and any (possibly unknown) user — and the state is
returned untouched: the rejection happens before any user, console, or
ledger access. -/
theorem C7_invalid_interval (db : DB) (req : RawRequest) (uname : String) (cid : Nat)
    (t1 t2 : Timestamp)
    (hu : req.username = some uname) (hu0 : uname ≠ "")
    (hc : req.console_id = some cid) (hc0 : cid ≠ 0)
    (hs : req.start_time = some t1) (he : req.end_time = some t2)
    (hle : t2 ≤ t1) :
    reserve db req = (db, Except.error ApiError.invalidInterval) := by
  obtain ⟨ou, oc, os, oe, oh⟩ := req
  obtain rfl : ou = some uname := hu
  obtain rfl : oc = some cid := hc
  obtain rfl : os = some t1 := hs
  obtain rfl : oe = some t2 := he
  show reserveChecked db uname cid t1 t2 = _
  unfold reserveChecked
  rw [if_neg (by push_neg; exact ⟨hu0, hc0⟩), if_pos hle]

/-- C7 witness: `start = end` (at second 100) on console 1 for the
unknown user `bob` in the seeded initial state is rejected as
`InvalidInterval` with the state unchanged. -/
theorem C7_witness :
    reserve initDB ⟨some "bob", some 1, some 100, some 100, none⟩ =
      (initDB, Except.error ApiError.invalidInterval) :=
  C7_invalid_interval initDB _ "bob" 1 100 100 rfl (by decide) rfl (by decide) rfl rfl
    (le_refl 100)

/-- C9: the handler resolves the user before it checks the console: with
well-formed inputs and an unknown username the result is `UnknownUser`
no matter which console id was named, and `UnknownResource` is only ever
returned when the username resolved to an existing user. -/
theorem C9_user_before_console (db : DB) (req : RawRequest) :
    (∀ uname cid t1 t2,
        req.username = some uname → uname ≠ "" →
        req.console_id = some cid → cid ≠ 0 →
        req.start_time = some t1 → req.end_time = some t2 → t1 < t2 →
        findUser db uname = none →
        reserve db req = (db, Except.error ApiError.unknownUser))
    ∧ (∀ db', reserve db req = (db', Except.error ApiError.unknownResource) →
        ∃ uname u, req.username = some uname ∧ findUser db uname = some u) := by
  constructor
  · intro uname cid t1 t2 hu hu0 hc hc0 hs he hlt hnone
    obtain ⟨ou, oc, os, oe, oh⟩ := req
    obtain rfl : ou = some uname := hu
    obtain rfl : oc = some cid := hc
    obtain rfl : os = some t1 := hs
    obtain rfl : oe = some t2 := he
    show reserveChecked db uname cid t1 t2 = _
    unfold reserveChecked
    rw [if_neg (by push_neg; exact ⟨hu0, hc0⟩), if_neg (Nat.not_le.mpr hlt), hnone]
  · intro db' h
    obtain ⟨ou, oc, os, oe, oh⟩ := req
    cases ou with
    | none =>
      replace h : (db, (Except.error ApiError.invalidInput : Except ApiError Nat)) =
          (db', Except.error ApiError.unknownResource) := h
      simp at h
    | some uname =>
    cases oc with
    | none =>
      replace h : (db, (Except.error ApiError.invalidInput : Except ApiError Nat)) =
          (db', Except.error ApiError.unknownResource) := h
      simp at h
    | some cid =>
    cases os with
    | none =>
      replace h : (db, (Except.error ApiError.invalidInput : Except ApiError Nat)) =
          (db', Except.error ApiError.unknownResource) := h
      simp at h
    | some t1 =>
    cases oe with
    | none =>
      replace h : (db, (Except.error ApiError.invalidInput : Except ApiError Nat)) =
          (db', Except.error ApiError.unknownResource) := h
      simp at h
    | some t2 =>
      replace h : reserveChecked db uname cid t1 t2 =
          (db', Except.error ApiError.unknownResource) := h
      unfold reserveChecked at h
      split_ifs at h
      all_goals
        first
        | (cases hf : findUser db uname with
           | none => rw [hf] at h; simp at h
           | some u => exact ⟨uname, u, rfl, hf⟩)
        | simp at h

/-- C9 witness: in the seeded initial state, the unknown user `carol`
asking for the likewise unknown console 99 gets `UnknownUser`, not
`UnknownResource`. -/
theorem C9_witness :
    reserve initDB ⟨some "carol", some 99, some 0, some 3600, none⟩ =
      (initDB, Except.error ApiError.unknownUser) :=
  (C9_user_before_console initDB ⟨some "carol", some 99, some 0, some 3600, none⟩).1
    "carol" 99 0 3600 rfl (by decide) rfl (by decide) rfl rfl (by decide) rfl

/-- C6 counterexample: a request naming the non-existent console 99 by
the unknown user `ghost` fails with `UnknownUser`, not
`UnknownResource` — the user check precedes the console check, so the
claim's "for every user" is false. -/
theorem C6_counterexample :
    initDB.consoles.contains 99 = false ∧
    reserve initDB ⟨some "ghost", some 99, some 0, some 3600, none⟩ =
      (initDB, Except.error ApiError.unknownUser) := ⟨rfl, rfl⟩

/-- C6 (amended): a reserve request with well-formed inputs, a valid
interval, and a known user, naming a console id absent from the
registry, fails with `UnknownResource` and leaves the state unchanged. -/
theorem C6_unknown_console (db : DB) (req : RawRequest) (uname : String) (u : User)
    (cid : Nat) (t1 t2 : Timestamp)
    (hu : req.username = some uname) (hu0 : uname ≠ "")
    (hc : req.console_id = some cid) (hc0 : cid ≠ 0)
    (hs : req.start_time = some t1) (he : req.end_time = some t2) (hlt : t1 < t2)
    (huser : findUser db uname = some u)
    (hcon : db.consoles.contains cid = false) :
    reserve db req = (db, Except.error ApiError.unknownResource) := by
  obtain ⟨ou, oc, os, oe, oh⟩ := req
  obtain rfl : ou = some uname := hu
  obtain rfl : oc = some cid := hc
  obtain rfl : os = some t1 := hs
  obtain rfl : oe = some t2 := he
  show reserveChecked db uname cid t1 t2 = _
  unfold reserveChecked
  rw [if_neg (by push_neg; exact ⟨hu0, hc0⟩), if_neg (Nat.not_le.mpr hlt), huser]
  dsimp only
  rw [if_neg (by simpa using hcon)]

/-- C6 witness: the registered user `alice` asking for the non-existent
console 99 gets `UnknownResource`. -/
theorem C6_witness :
    reserve dbA ⟨some "alice", some 99, some 0, some 3600, none⟩ =
      (dbA, Except.error ApiError.unknownResource) :=
  C6_unknown_console dbA _ "alice" ⟨1, "alice", 0⟩ 99 0 3600 rfl (by decide) rfl
    (by decide) rfl rfl (by decide) (by decide) (by decide)

/-- C5 counterexample: a request that carries an explicit hour count of 5
for a one-hour interval is accepted with an applied delta of 1, not 5 —
the handler never reads an hours field, so the explicit count does not
override the derived value. -/
theorem C5_counterexample :
    (reserve dbA ⟨some "alice", some 1, some 0, some 3600, some 5⟩).2 = Except.ok 1 ∧
    (1 : Nat) ≠ 5 := ⟨rfl, by decide⟩

/-- C5 (amended): `reserve` ignores any explicit hour count supplied with
the request; two requests differing only in that field behave
identically, so the applied delta is always the interval-derived one. -/
theorem C5_hours_ignored (db : DB) (req : RawRequest) (h1 h2 : Option Int) :
    reserve db { req with explicit_hours := h1 } =
      reserve db { req with explicit_hours := h2 } := by
  cases req
  rfl

/-- C8 counterexample: `add_playtime` for the unknown user `ghost` with a
positive quantity reports success (the UPDATE matches zero rows), it
does not fail with `UnknownUser`. -/
theorem C8_counterexample :
    findUser dbA "ghost" = none ∧
    add_playtime dbA "ghost" 2 = (dbA, Except.ok ()) ∧
    (Except.ok () : Except ApiError Unit) ≠ Except.error ApiError.unknownUser :=
  ⟨rfl, rfl, fun h => Except.noConfusion h⟩

/-- C8 (amended): a direct `add_playtime` call with a positive quantity
and a username matching no account reports success and changes no state
at all — it never returns `UnknownUser`. -/
theorem C8_silent_success (db : DB) (uname : String) (hours : Int)
    (h0 : uname ≠ "") (hpos : 0 < hours)
    (hunknown : ∀ u ∈ db.users, u.username ≠ uname) :
    add_playtime db uname hours = (db, Except.ok ()) := by
  unfold add_playtime
  rw [if_neg (by push_neg; exact ⟨h0, hpos⟩)]
  rw [map_id_of_no_match db.users _ (fun u hu => by
    rw [if_neg (by simp [hunknown u hu])])]

/-- C8 witness: adding 2 hours to the unknown user `ghost` succeeds
silently and leaves the single-user state untouched. -/
theorem C8_witness :
    add_playtime dbA "ghost" 2 = (dbA, Except.ok ()) :=
  C8_silent_success dbA "ghost" 2 (by decide) (by decide) (by decide)

/-- C1: with well-formed inputs, a known user and a known console,
`reserve` reports `Conflict` exactly when some stored booking on the
same console satisfies `existing.start < new.end` and
`existing.end > new.start` (strict inequalities, half-open `[start, end)`
semantics); when every same-console booking misses the interval —
back-to-back touching included — the request is accepted; and every
reachable ledger satisfies the no-overlap invariant. -/
theorem C1_overlap_conflict (db : DB) (req : RawRequest) (uname : String) (u : User)
    (cid : Nat) (t1 t2 : Timestamp)
    (hu : req.username = some uname) (hu0 : uname ≠ "")
    (hc : req.console_id = some cid) (hc0 : cid ≠ 0)
    (hs : req.start_time = some t1) (he : req.end_time = some t2) (hlt : t1 < t2)
    (huser : findUser db uname = some u)
    (hcon : db.consoles.contains cid = true) :
    ((reserve db req).2 = Except.error ApiError.conflict ↔
      ∃ b ∈ db.bookings, b.console_id = cid ∧ b.start_time < t2 ∧ t1 < b.end_time)
    ∧ ((∀ b ∈ db.bookings, b.console_id = cid → b.end_time ≤ t1 ∨ t2 ≤ b.start_time) →
        (reserve db req).2 = Except.ok (added_hours t1 t2))
    ∧ (Reachable db → NoOverlap db) := by
  have hred : reserve db req = reserveChecked db uname cid t1 t2 := by
    obtain ⟨ou, oc, os, oe, oh⟩ := req
    obtain rfl : ou = some uname := hu
    obtain rfl : oc = some cid := hc
    obtain rfl : os = some t1 := hs
    obtain rfl : oe = some t2 := he
    rfl
  rw [hred]
  unfold reserveChecked
  rw [if_neg (by push_neg; exact ⟨hu0, hc0⟩), if_neg (Nat.not_le.mpr hlt), huser]
  dsimp only
  rw [if_pos hcon]
  refine ⟨?_, ?_, fun hr => reachable_noOverlap db hr⟩
  · constructor
    · intro hconf
      by_contra hnex
      have hcf : hasConflict db cid t1 t2 = false := by
        rw [hasConflict_false_iff]
        intro b hb hP
        exact hnex ⟨b, hb, hP⟩
      rw [if_neg (by simp [hcf])] at hconf
      simp at hconf
    · intro hex
      rw [if_pos ((hasConflict_true_iff db cid t1 t2).mpr hex)]
  · intro hdisj
    have hcf : hasConflict db cid t1 t2 = false := by
      rw [hasConflict_false_iff]
      rintro b hb ⟨hP1, hP2, hP3⟩
      rcases hdisj b hb hP1 with hcase | hcase
      · exact absurd hP3 (Nat.not_lt.mpr hcase)
      · exact absurd hP2 (Nat.not_lt.mpr hcase)
    rw [if_neg (by simp [hcf])]

/-- C1 witness: alice's two-hour request on the empty seeded ledger is
not a conflict (the ledger has no booking), is accepted, and the state
is reachable and overlap-free. -/
theorem C1_witness :
    ((reserve dbA reqA).2 = Except.error ApiError.conflict ↔
      ∃ b ∈ dbA.bookings, b.console_id = 1 ∧ b.start_time < 7200 ∧ 0 < b.end_time)
    ∧ ((∀ b ∈ dbA.bookings, b.console_id = 1 → b.end_time ≤ 0 ∨ 7200 ≤ b.start_time) →
        (reserve dbA reqA).2 = Except.ok (added_hours 0 7200))
    ∧ (Reachable dbA → NoOverlap dbA) :=
  C1_overlap_conflict dbA reqA "alice" ⟨1, "alice", 0⟩ 1 0 7200 rfl (by decide) rfl
    (by decide) rfl rfl (by decide) (by decide) (by decide)

/-- C3: a successful `reserve` appends exactly one booking record and
raises exactly the resolved user's playtime by exactly the applied
delta, leaving every other user's playtime unchanged, all in one state
change; every failed `reserve` returns the state completely unchanged
(no partial writes). -/
theorem C3_reserve_frame (db : DB) (req : RawRequest) (db' : DB)
    (r : Except ApiError Nat)
    (hres : reserve db req = (db', r)) :
    (∀ d, r = Except.ok d →
      (∃ b, db'.bookings = db.bookings ++ [b]) ∧
      ∃ uname u, req.username = some uname ∧ findUser db uname = some u ∧
        userPlaytime db' u.id = userPlaytime db u.id + (d : Int) ∧
        ∀ uid, uid ≠ u.id → userPlaytime db' uid = userPlaytime db uid)
    ∧ (∀ e, r = Except.error e → db' = db) := by
  have h1 : (reserve db req).1 = db' := by rw [hres]
  have h2 : (reserve db req).2 = r := by rw [hres]
  rcases reserve_cases db req with ⟨heq1, e0, heq2⟩ |
    ⟨uname, cid, t1, t2, u, hu, -, -, -, -, -, -, hf, -, -, heq⟩
  · have hdb : db' = db := by rw [← h1, heq1]
    have hr : r = Except.error e0 := by rw [← h2, heq2]
    subst hdb
    subst hr
    exact ⟨fun d hd => absurd hd (by simp), fun e he => rfl⟩
  · rw [hres, Prod.mk.injEq] at heq
    obtain ⟨hdb, hr⟩ := heq
    subst hdb
    subst hr
    constructor
    · intro d hd
      have hd' : d = added_hours t1 t2 := by
        injection hd with hd'
        exact hd'.symm
      subst hd'
      refine ⟨⟨⟨db.nextBookingId, u.id, cid, t1, t2⟩, rfl⟩, uname, u, hu, hf, ?_, ?_⟩
      · exact playtimeOf_applyDelta_self db.users u.id _
          ⟨u, List.mem_of_find?_eq_some hf, rfl⟩
      · intro uid huid
        exact playtimeOf_applyDelta_other db.users u.id uid _ huid
    · intro e he
      exact absurd he (by simp)

/-- C3 witness: alice's two-hour booking on console 1, applied to the
one-user state, adds one booking record and exactly 2 hours to her
playtime, and fails nowhere. -/
theorem C3_witness :
    (∀ d, (reserve dbA reqA).2 = Except.ok d →
      (∃ b, (reserve dbA reqA).1.bookings = dbA.bookings ++ [b]) ∧
      ∃ uname u, reqA.username = some uname ∧ findUser dbA uname = some u ∧
        userPlaytime (reserve dbA reqA).1 u.id = userPlaytime dbA u.id + (d : Int) ∧
        ∀ uid, uid ≠ u.id →
          userPlaytime (reserve dbA reqA).1 uid = userPlaytime dbA uid)
    ∧ (∀ e, (reserve dbA reqA).2 = Except.error e → (reserve dbA reqA).1 = dbA) :=
  C3_reserve_frame dbA reqA (reserve dbA reqA).1 (reserve dbA reqA).2 rfl

/-- C4: the delta a successful `reserve` applies is the floor of the
interval length in hours, except that a floor of zero is replaced by the
fixed minimum of 1; in particular an exactly-one-hour interval yields
delta 1. -/
theorem C4_derived_delta (db : DB) (req : RawRequest) (t1 t2 : Timestamp)
    (db' : DB) (d : Nat)
    (hs : req.start_time = some t1) (he : req.end_time = some t2)
    (hres : reserve db req = (db', Except.ok d)) :
    ((t2 - t1) / 3600 ≠ 0 ∧ d = (t2 - t1) / 3600 ∨ (t2 - t1) / 3600 = 0 ∧ d = 1)
    ∧ (t2 - t1 = 3600 → d = 1) := by
  rcases reserve_cases db req with ⟨-, e0, heq2⟩ |
    ⟨uname, cid, t1', t2', u, -, -, hs', he', -, -, -, -, -, -, heq⟩
  · rw [hres] at heq2
    simp at heq2
  · have ht1 : t1' = t1 := by rw [hs] at hs'; injection hs' with h; exact h.symm
    have ht2 : t2' = t2 := by rw [he] at he'; injection he' with h; exact h.symm
    rw [ht1, ht2] at heq
    rw [hres, Prod.mk.injEq] at heq
    have hd : d = added_hours t1 t2 := by
      injection heq.2
    subst hd
    constructor
    · by_cases h0 : (t2 - t1) / 3600 = 0
      · right
        exact ⟨h0, by simp [added_hours, h0]⟩
      · left
        exact ⟨h0, by simp [added_hours, h0]⟩
    · intro h36
      simp [added_hours, h36]

/-- C4 witness: alice's half-hour request is accepted and the applied
delta is the 1-hour minimum (the derived floor is 0). -/
theorem C4_witness :
    reserve dbA reqShort = ((reserve dbA reqShort).1, Except.ok 1) ∧
    ((((1800 : Nat) - 0) / 3600 ≠ 0 ∧ 1 = ((1800 : Nat) - 0) / 3600 ∨
        ((1800 : Nat) - 0) / 3600 = 0 ∧ 1 = 1)
      ∧ ((1800 : Nat) - 0 = 3600 → 1 = 1)) :=
  ⟨rfl, C4_derived_delta dbA reqShort 0 1800 (reserve dbA reqShort).1 1 rfl rfl rfl⟩

/-- C10: in every reachable state each stored playtime is a non-negative
integer (new accounts start at 0), none of the three mutating endpoints
ever lowers any user's reported playtime, and `get_playtime` only ever
returns non-negative integer totals. -/
theorem C10_playtime_invariant (db : DB) (hdb : Reachable db) :
    (∀ u ∈ db.users, 0 ≤ u.playtime)
    ∧ (∀ req uid, userPlaytime db uid ≤ userPlaytime (reserve db req).1 uid)
    ∧ (∀ un hrs uid, userPlaytime db uid ≤ userPlaytime (add_playtime db un hrs).1 uid)
    ∧ (∀ un pw uid, userPlaytime db uid ≤ userPlaytime (register db un pw).1 uid)
    ∧ (∀ un v, get_playtime db un = Except.ok v → 0 ≤ v) := by
  refine ⟨reachable_nonneg db hdb,
    fun req uid => reserve_playtime_mono db req uid,
    fun un hrs uid => add_playtime_mono db un hrs uid,
    fun un pw uid => register_playtime_mono db un pw uid,
    ?_⟩
  intro un v hv
  unfold get_playtime at hv
  split_ifs at hv
  cases hf : findUser db un with
  | none =>
    rw [hf] at hv
    exact absurd hv (by simp)
  | some u =>
    rw [hf] at hv
    injection hv with hvu
    rw [← hvu]
    exact reachable_nonneg db hdb u (List.mem_of_find?_eq_some hf)

/-- C10 witness: the invariant bundle instantiated at the seeded initial
state. -/
theorem C10_witness :
    (∀ u ∈ initDB.users, 0 ≤ u.playtime)
    ∧ (∀ req uid, userPlaytime initDB uid ≤ userPlaytime (reserve initDB req).1 uid)
    ∧ (∀ un hrs uid,
        userPlaytime initDB uid ≤ userPlaytime (add_playtime initDB un hrs).1 uid)
    ∧ (∀ un pw uid,
        userPlaytime initDB uid ≤ userPlaytime (register initDB un pw).1 uid)
    ∧ (∀ un v, get_playtime initDB un = Except.ok v → 0 ≤ v) :=
  C10_playtime_invariant initDB Reachable.init

end ClubAngel
